import Mathlib

/-!
Shallow embedding of the sales-analytics pipeline
(`src/utils/file_handler.py`, `src/utils/data_processor.py`,
`src/utils/api_handler.py`) and proofs about its specification.

Python floats are modelled as exact rationals (`Rat`); Python dicts that are
built by insertion and iterated in insertion order are modelled as association
lists.  Python `sorted` is a stable sort, modelled here by a stable insertion
sort `pySorted` together with the lemmas (permutation, sortedness, stability)
that characterise any stable sort uniquely.
-/

/-- One parsed sales transaction (the 8 fields produced by
`parse_transactions` in `src/utils/file_handler.py`). -/
structure Transaction where
  TransactionID : String
  Date : String
  ProductID : String
  ProductName : String
  Quantity : Int
  UnitPrice : Rat
  CustomerID : String
  Region : String
deriving Repr, DecidableEq

/-- The derived amount `Quantity * UnitPrice` used by every aggregation. -/
def amount (tx : Transaction) : Rat := (tx.Quantity : Rat) * tx.UnitPrice

/-- Insert `x` into `l`, stopping before the first element `y` with
`le x y`.  Inserting every element this way yields a stable sort. -/
def pyInsert (le : α → α → Bool) (x : α) : List α → List α
  | [] => [x]
  | y :: ys => if le x y then x :: y :: ys else y :: pyInsert le x ys

/-- Stable insertion sort, modelling Python's stable `sorted(..., key=...)`:
the output is sorted for `le` and elements equivalent under `le` keep their
original relative order. -/
def pySorted (le : α → α → Bool) : List α → List α
  | [] => []
  | x :: xs => pyInsert le x (pySorted le xs)


/-! ## Aggregation Engine (`src/utils/data_processor.py`) -/

/-- `calculate_total_revenue`: sum of `Quantity * UnitPrice` over all
transactions, accumulated left to right starting from `0.0`. -/
def calculate_total_revenue (transactions : List Transaction) : Rat :=
  transactions.foldl (fun total tx => total + (tx.Quantity : Rat) * tx.UnitPrice) 0

/-- Per-region statistics record built by `region_wise_sales`. -/
structure RegionStats where
  total_sales : Rat
  transaction_count : Nat
  percentage : Rat
deriving Repr, DecidableEq

/-- One iteration of the `region_wise_sales` aggregation loop: create the
region entry (initialised to zeroes) if absent, then add the transaction's
amount and bump the count.  The association list keeps dict insertion order. -/
def addRegionTx (stats : List (String × RegionStats)) (region : String)
    (amt : Rat) : List (String × RegionStats) :=
  match stats with
  | [] => [(region, { total_sales := 0 + amt, transaction_count := 0 + 1, percentage := 0 })]
  | (r, s) :: rest =>
    if r = region then
      (r, { total_sales := s.total_sales + amt,
            transaction_count := s.transaction_count + 1,
            percentage := s.percentage }) :: rest
    else (r, s) :: addRegionTx rest region amt

/-- Step 1 of `region_wise_sales`: aggregate totals per region. -/
def regionTotals (transactions : List Transaction) : List (String × RegionStats) :=
  transactions.foldl (fun acc tx => addRegionTx acc tx.Region (amount tx)) []

/-- Python's `round(x, 2)` idealised over the exact rationals: round
`x * 100` half-to-even to an integer and divide by 100. -/
def pyRound2 (x : Rat) : Rat :=
  let y := x * 100
  let f : Int := Int.fdiv y.num (y.den : Int)
  let r : Int :=
    if y - (f : Rat) < 1 / 2 then f
    else if (1 : Rat) / 2 < y - (f : Rat) then f + 1
    else if f % 2 = 0 then f else f + 1
  (r : Rat) / 100

/-- Step 2 of `region_wise_sales`: fill in each region's percentage of the
overall revenue, but only when that revenue is positive (the
division-by-zero guard). -/
def regionPercentStep (total_revenue : Rat) (stats : List (String × RegionStats)) :
    List (String × RegionStats) :=
  stats.map (fun p =>
    if 0 < total_revenue then
      (p.1, { total_sales := p.2.total_sales,
              transaction_count := p.2.transaction_count,
              percentage := pyRound2 (p.2.total_sales / total_revenue * 100) })
    else p)

/-- `region_wise_sales`: aggregate per region, fill in percentages of the
overall revenue when that revenue is positive, then sort by descending
`total_sales` (Python's stable `sorted(..., reverse=True)`). -/
def region_wise_sales (transactions : List Transaction) :
    List (String × RegionStats) :=
  pySorted (fun a b => decide (b.2.total_sales ≤ a.2.total_sales))
    (regionPercentStep (calculate_total_revenue transactions)
      (regionTotals transactions))

/-- Per-product statistics record built by `top_selling_products`. -/
structure ProductStats where
  total_qty : Int
  total_revenue : Rat
deriving Repr, DecidableEq

/-- One iteration of the `top_selling_products` aggregation loop. -/
def addProductTx (stats : List (String × ProductStats)) (product : String)
    (qty : Int) (revenue : Rat) : List (String × ProductStats) :=
  match stats with
  | [] => [(product, { total_qty := 0 + qty, total_revenue := 0 + revenue })]
  | (p, s) :: rest =>
    if p = product then
      (p, { total_qty := s.total_qty + qty,
            total_revenue := s.total_revenue + revenue }) :: rest
    else (p, s) :: addProductTx rest product qty revenue

/-- Step 1 of `top_selling_products` (and of `low_performing_products`):
aggregate total quantity and revenue per product name. -/
def product_stats (transactions : List Transaction) : List (String × ProductStats) :=
  transactions.foldl
    (fun acc tx => addProductTx acc tx.ProductName tx.Quantity (amount tx)) []

/-- Step 2 of `top_selling_products`: stable sort by descending total
quantity. -/
def sorted_products (transactions : List Transaction) : List (String × ProductStats) :=
  pySorted (fun a b => decide (b.2.total_qty ≤ a.2.total_qty))
    (product_stats transactions)

/-- `top_selling_products(transactions, n)`: first `n` of the sorted product
statistics, as `(name, quantity, revenue)` triples. -/
def top_selling_products (transactions : List Transaction) (n : Nat) :
    List (String × Int × Rat) :=
  ((sorted_products transactions).take n).map
    (fun p => (p.1, p.2.total_qty, p.2.total_revenue))

/-- `top_selling_products` called without `n`, i.e. with Python's default
argument `n=5`. -/
def top_selling_products_default (transactions : List Transaction) :
    List (String × Int × Rat) :=
  top_selling_products transactions 5

/-- Per-date aggregate while the `daily_sales_trend` loop runs; the set of
customer ids is modelled as a duplicate-free list in insertion order. -/
structure DailyAgg where
  revenue : Rat
  transaction_count : Nat
  unique_customers : List String
deriving Repr, DecidableEq

/-- Per-date statistics after `daily_sales_trend` collapses the customer set
to its size. -/
structure DailyStats where
  revenue : Rat
  transaction_count : Nat
  unique_customers : Nat
deriving Repr, DecidableEq

/-- Python `set.add`: insert the id if it is not already present. -/
def addCustomer (customers : List String) (cust : String) : List String :=
  if cust ∈ customers then customers else customers ++ [cust]

/-- One iteration of the `daily_sales_trend` aggregation loop. -/
def addDailyTx (stats : List (String × DailyAgg)) (date : String) (amt : Rat)
    (cust : String) : List (String × DailyAgg) :=
  match stats with
  | [] => [(date, { revenue := 0 + amt, transaction_count := 0 + 1,
                    unique_customers := addCustomer [] cust })]
  | (d, s) :: rest =>
    if d = date then
      (d, { revenue := s.revenue + amt,
            transaction_count := s.transaction_count + 1,
            unique_customers := addCustomer s.unique_customers cust }) :: rest
    else (d, s) :: addDailyTx rest date amt cust

/-- `daily_sales_trend`: aggregate by date, collapse each customer set to a
count, and sort ascending by the date string. -/
def daily_sales_trend (transactions : List Transaction) :
    List (String × DailyStats) :=
  let daily := transactions.foldl
    (fun acc tx => addDailyTx acc tx.Date (amount tx) tx.CustomerID) []
  let daily := daily.map (fun p =>
    (p.1, { revenue := p.2.revenue, transaction_count := p.2.transaction_count,
            unique_customers := p.2.unique_customers.length : DailyStats }))
  pySorted (fun a b => decide (a.1 ≤ b.1)) daily

/-- Python's `max(iterable, key=k)`: raises `ValueError` on an empty
iterable, otherwise returns the first element with maximal key. -/
def pyMaxBy (key : α → Rat) : List α → Except String α
  | [] => Except.error "max() arg is an empty sequence"
  | x :: xs =>
    Except.ok (xs.foldl (fun best y => if key best < key y then y else best) x)

/-- `find_peak_sales_day`: the daily-trend entry with maximal revenue,
returned as `(date, revenue, transaction_count)`; `Except.error` models the
`ValueError` that Python's `max` raises on an empty sequence. -/
def find_peak_sales_day (transactions : List Transaction) :
    Except String (String × Rat × Nat) :=
  (pyMaxBy (fun p => p.2.revenue) (daily_sales_trend transactions)).map
    (fun p => (p.1, p.2.revenue, p.2.transaction_count))

/-- `low_performing_products(transactions, threshold)`: products whose total
quantity is strictly below the threshold, ascending by quantity. -/
def low_performing_products (transactions : List Transaction) (threshold : Int) :
    List (String × Int × Rat) :=
  let low := ((product_stats transactions).filter
    (fun p => decide (p.2.total_qty < threshold))).map
    (fun p => (p.1, p.2.total_qty, p.2.total_revenue))
  pySorted (fun a b => decide (a.2.1 ≤ b.2.1)) low

/-! ## Validator/Filter (`src/utils/file_handler.py`) -/

/-- Python's `str.startswith`: the second string is a character-for-character
prefix of the first. -/
def pyStartsWith (s pre : String) : Bool :=
  pre.data.isPrefixOf s.data

/-- The invalidity test of `validate_and_filter`: non-positive quantity or
unit price, or a missing `T`/`P`/`C` prefix on the three id fields. -/
def invalidTransaction (tx : Transaction) : Bool :=
  decide (tx.Quantity ≤ 0) || decide (tx.UnitPrice ≤ 0) ||
    !pyStartsWith tx.TransactionID "T" || !pyStartsWith tx.ProductID "P" ||
    !pyStartsWith tx.CustomerID "C"

/-- Summary dictionary returned by `validate_and_filter`. -/
structure FilterSummary where
  total_input : Nat
  invalid : Nat
  filtered_by_region : Nat
  filtered_by_amount : Nat
  final_count : Nat
deriving Repr, DecidableEq

/-- Step 4a of `validate_and_filter`: the region filter, applied only when
the `region` argument is truthy; returns the surviving list and the number
of records removed. -/
def regionStage (valid : List Transaction) (region : Option String) :
    List Transaction × Nat :=
  match region with
  | none => (valid, 0)
  | some r =>
    if r == "" then (valid, 0)
    else
      let v := valid.filter (fun tx => tx.Region == r)
      (v, valid.length - v.length)

/-- Step 4b of `validate_and_filter`: the minimum-amount filter, applied
whenever `min_amount` is not `None`. -/
def minAmountStage (valid : List Transaction) (min_amount : Option Rat) :
    List Transaction × Nat :=
  match min_amount with
  | none => (valid, 0)
  | some m =>
    let v := valid.filter (fun tx => decide (m ≤ amount tx))
    (v, valid.length - v.length)

/-- Step 4c of `validate_and_filter`: the maximum-amount filter, applied
whenever `max_amount` is not `None`. -/
def maxAmountStage (valid : List Transaction) (max_amount : Option Rat) :
    List Transaction × Nat :=
  match max_amount with
  | none => (valid, 0)
  | some m =>
    let v := valid.filter (fun tx => decide (amount tx ≤ m))
    (v, valid.length - v.length)

/-- `validate_and_filter(transactions, region, min_amount, max_amount)`
(Python defaults: all three filters `None`): drop invalid records counting
them, then apply the optional region, minimum-amount and maximum-amount
filters in that order, and report the summary dictionary. -/
def validate_and_filter (transactions : List Transaction)
    (region : Option String) (min_amount : Option Rat) (max_amount : Option Rat) :
    List Transaction × Nat × FilterSummary :=
  let total_input := transactions.length
  let invalid_count := transactions.countP invalidTransaction
  let valid0 := transactions.filter (fun tx => !invalidTransaction tx)
  let s1 := regionStage valid0 region
  let s2 := minAmountStage s1.1 min_amount
  let s3 := maxAmountStage s2.1 max_amount
  let summary : FilterSummary :=
    { total_input := total_input
      invalid := invalid_count
      filtered_by_region := s1.2
      filtered_by_amount := s2.2 + s3.2
      final_count := s3.1.length }
  (s3.1, invalid_count, summary)

/-! ## Catalog Enricher and Report Writer (`src/utils/api_handler.py`) -/

/-- The category/brand/rating subset of a catalog product stored in the
product mapping built by `create_product_mapping`. -/
structure CatalogInfo where
  title : Option String
  category : Option String
  brand : Option String
  rating : Option Rat
deriving Repr, DecidableEq

/-- Python dict lookup `product_mapping[product_id]` on the association-list
model of the mapping. -/
def lookupMapping (m : List (Int × CatalogInfo)) (k : Int) : Option CatalogInfo :=
  match m with
  | [] => none
  | (k1, v) :: rest => if k1 = k then some v else lookupMapping rest k

/-- `re.search(r'\d+', s)`: the first contiguous run of digits in the
character list, if any. -/
def firstDigitRun : List Char → Option (List Char)
  | [] => none
  | c :: cs => if c.isDigit then some (c :: cs.takeWhile Char.isDigit)
               else firstDigitRun cs

/-- `int(...)` on a string of decimal digits. -/
def digitsToNat (ds : List Char) : Nat :=
  ds.foldl (fun n c => 10 * n + (c.toNat - 48)) 0

/-- The numeric id embedded in `ProductID` (`P101` gives `101`), or `none`
when the string contains no digit. -/
def extractProductId (s : String) : Option Int :=
  (firstDigitRun s.data).map (fun ds => (digitsToNat ds : Int))

/-- A transaction with the four enrichment fields added by
`enrich_sales_data`. -/
structure EnrichedTransaction where
  tx : Transaction
  API_Category : Option String
  API_Brand : Option String
  API_Rating : Option Rat
  API_Match : Bool
deriving Repr, DecidableEq

/-- The no-match outcome: all three enrichment fields `None` and
`API_Match = False`. -/
def enrichNoMatch (tx : Transaction) : EnrichedTransaction :=
  { tx := tx, API_Category := none, API_Brand := none, API_Rating := none,
    API_Match := false }

/-- The body of the `enrich_sales_data` loop for one transaction.  The
Python guard is `if product_id and product_id in product_mapping:`, so a
`None` extraction, an extracted id equal to `0` (falsy in Python), and an id
absent from the mapping all take the no-match branch. -/
def enrichOne (product_mapping : List (Int × CatalogInfo)) (tx : Transaction) :
    EnrichedTransaction :=
  match extractProductId tx.ProductID with
  | none => enrichNoMatch tx
  | some pid =>
    if pid = 0 then enrichNoMatch tx
    else
      match lookupMapping product_mapping pid with
      | none => enrichNoMatch tx
      | some api_info =>
        { tx := tx, API_Category := api_info.category,
          API_Brand := api_info.brand, API_Rating := api_info.rating,
          API_Match := true }

/-- `enrich_sales_data` (the effective, second definition): enrich each
transaction in order, appending each result to the output list; the final
console summary then computes `enriched_count/len(enriched)`, which raises
`ZeroDivisionError` when the enriched list is empty (modelled as
`Except.error`), so only a nonempty batch is actually returned. -/
def enrich_sales_data (transactions : List Transaction)
    (product_mapping : List (Int × CatalogInfo)) :
    Except String (List EnrichedTransaction) :=
  let enriched := transactions.foldl
    (fun enriched tx => enriched ++ [enrichOne product_mapping tx]) []
  if enriched.length = 0 then Except.error "division by zero"
  else Except.ok enriched

/-- Python `str` applied to a field that is either a string or `None`. -/
def pyStrOfOptStr : Option String → String
  | none => "None"
  | some s => s

/-- Python `str` applied to a field that is either a float or `None`;
`showFloat` stands for Python's float formatting. -/
def pyStrOfOptRat (showFloat : Rat → String) : Option Rat → String
  | none => "None"
  | some r => showFloat r

/-- Python `str` applied to a bool: the boolean literal strings. -/
def pyStrOfBool : Bool → String
  | true => "True"
  | false => "False"

/-- The pipe-delimited header line written by `save_enriched_data`. -/
def enrichedHeader : List String :=
  ["TransactionID", "Date", "ProductID", "ProductName", "Quantity",
   "UnitPrice", "CustomerID", "Region", "API_Category", "API_Brand",
   "API_Rating", "API_Match"]

/-- One data row written by the effective (second) definition of
`save_enriched_data`: every field goes through `str(...)` with no
special-casing of `None`. -/
def enrichedRow (showFloat : Rat → String) (e : EnrichedTransaction) :
    List String :=
  [e.tx.TransactionID, e.tx.Date, e.tx.ProductID, e.tx.ProductName,
   toString e.tx.Quantity, showFloat e.tx.UnitPrice, e.tx.CustomerID,
   e.tx.Region, pyStrOfOptStr e.API_Category, pyStrOfOptStr e.API_Brand,
   pyStrOfOptRat showFloat e.API_Rating, pyStrOfBool e.API_Match]

/-- The lines of the snapshot file written by `save_enriched_data`: the
header followed by one pipe-joined row per enriched transaction. -/
def save_enriched_data (showFloat : Rat → String)
    (enriched : List EnrichedTransaction) : List String :=
  String.intercalate "|" enrichedHeader ::
    enriched.map (fun e => String.intercalate "|" (enrichedRow showFloat e))

/-- One iteration of the product aggregation loop in
`generate_sales_report` (a `defaultdict` starting each entry at zero). -/
def addReportProduct (stats : List (String × ProductStats)) (product : String)
    (qty : Int) (revenue : Rat) : List (String × ProductStats) :=
  match stats with
  | [] => [(product, { total_qty := 0 + qty, total_revenue := 0 + revenue })]
  | (p, s) :: rest =>
    if p = product then
      (p, { total_qty := s.total_qty + qty,
            total_revenue := s.total_revenue + revenue }) :: rest
    else (p, s) :: addReportProduct rest product qty revenue

/-- The `product_sales` aggregation of `generate_sales_report`. -/
def report_product_sales (transactions : List Transaction) :
    List (String × ProductStats) :=
  transactions.foldl
    (fun acc tx => addReportProduct acc tx.ProductName tx.Quantity (amount tx)) []

/-- The `top_products` list of `generate_sales_report`: the product
aggregation stably sorted by descending revenue, truncated to 5. -/
def report_top_products (transactions : List Transaction) :
    List (String × ProductStats) :=
  (pySorted (fun a b => decide (b.2.total_revenue ≤ a.2.total_revenue))
    (report_product_sales transactions)).take 5

/-- The `low_products` list of `generate_sales_report`: names of products
whose aggregated quantity equals zero. -/
def report_low_products (transactions : List Transaction) : List String :=
  ((report_product_sales transactions).filter
    (fun p => decide (p.2.total_qty = 0))).map (fun p => p.1)

/-- The "Low Performing Products" line of the report (Python renders
`'None'` when the list is falsy, i.e. empty). -/
def report_low_line (transactions : List Transaction) : String :=
  "Low Performing Products: " ++
    (if (report_low_products transactions).isEmpty then "None"
     else String.intercalate ", " (report_low_products transactions))

/-! ## Concrete fixtures used by counterexamples and witnesses -/

/-- A transaction for product `Alpha`: quantity 10 at unit price 1, so a
large quantity but a small revenue. -/
def txAlpha : Transaction :=
  ⟨"T1", "2024-01-01", "P101", "Alpha", 10, 1, "C1", "North"⟩

/-- A transaction for product `Beta`: quantity 1 at unit price 100, so a
small quantity but a large revenue. -/
def txBeta : Transaction :=
  ⟨"T2", "2024-01-01", "P102", "Beta", 1, 100, "C2", "South"⟩

/-- A transaction whose `ProductID` embeds the numeric id `0`. -/
def txZeroId : Transaction :=
  ⟨"T9", "2024-01-05", "P0", "Widget", 1, 1, "C9", "North"⟩

/-- Catalog entry stored under id `0`. -/
def infoZero : CatalogInfo :=
  ⟨some "Zero Item", some "Electronics", some "Acme", some 4⟩

/-- A product mapping that contains the numeric id `0`. -/
def mapZeroId : List (Int × CatalogInfo) := [(0, infoZero)]

/-- Catalog entry stored under id `101`. -/
def infoMouse : CatalogInfo :=
  ⟨some "Mouse", some "Electronics", some "X", some 4⟩

/-- A product mapping containing the numeric id `101` matching `txAlpha`. -/
def mapMouse : List (Int × CatalogInfo) := [(101, infoMouse)]

/-- A transaction with quantity `0`, so zero revenue. -/
def txFreeSample : Transaction :=
  ⟨"T3", "2024-01-02", "P103", "Sample", 0, 5, "C3", "East"⟩

/-- A fixed float renderer standing in for Python float formatting. -/
def showFloatFixture : Rat → String := fun _ => "1.0"

/-- An invalid transaction: its quantity is negative. -/
def txBadQty : Transaction :=
  ⟨"T4", "2024-01-03", "P104", "Gamma", -2, 3, "C4", "West"⟩

/-! ## Derived views used to state properties -/

/-- The product aggregation as `(name, quantity, revenue)` triples, the
shape in which `top_selling_products` reports entries. -/
def statsTriples (transactions : List Transaction) : List (String × Int × Rat) :=
  (product_stats transactions).map (fun p => (p.1, p.2.total_qty, p.2.total_revenue))

/-- Lookup of a product's aggregated statistics by name. -/
def findStats : List (String × ProductStats) → String → Option ProductStats
  | [], _ => none
  | (p, s) :: rest, k => if p = k then some s else findStats rest k

/-- The aggregated quantity recorded for a product name (`0` if absent). -/
def qtyVal (stats : List (String × ProductStats)) (k : String) : Int :=
  match findStats stats k with
  | some s => s.total_qty
  | none => 0

/-- The aggregated revenue recorded for a product name (`0` if absent). -/
def revVal (stats : List (String × ProductStats)) (k : String) : Rat :=
  match findStats stats k with
  | some s => s.total_revenue
  | none => 0
theorem pyInsert_perm (le : α → α → Bool) (x : α) (l : List α) :
    List.Perm (pyInsert le x l) (x :: l) := by
  induction l with
  | nil => simp [pyInsert]
  | cons y ys ih =>
    simp only [pyInsert]
    by_cases h : le x y
    · rw [if_pos h]
    · rw [if_neg h]
      exact (ih.cons y).trans (List.Perm.swap x y ys)

theorem pySorted_perm (le : α → α → Bool) (l : List α) :
    List.Perm (pySorted le l) l := by
  induction l with
  | nil => simp [pySorted]
  | cons x xs ih =>
    simpa [pySorted] using (pyInsert_perm le x (pySorted le xs)).trans (ih.cons x)

theorem mem_pyInsert (le : α → α → Bool) (x a : α) (l : List α) :
    a ∈ pyInsert le x l ↔ a = x ∨ a ∈ l := by
  rw [(pyInsert_perm le x l).mem_iff]
  simp

theorem mem_pySorted (le : α → α → Bool) (a : α) (l : List α) :
    a ∈ pySorted le l ↔ a ∈ l :=
  (pySorted_perm le l).mem_iff

theorem length_pySorted (le : α → α → Bool) (l : List α) :
    (pySorted le l).length = l.length :=
  (pySorted_perm le l).length_eq

theorem pairwise_pyInsert (le : α → α → Bool)
    (htrans : ∀ a b c, le a b = true → le b c = true → le a c = true)
    (htotal : ∀ a b, le a b = true ∨ le b a = true)
    (x : α) (l : List α) (h : l.Pairwise (fun a b => le a b = true)) :
    (pyInsert le x l).Pairwise (fun a b => le a b = true) := by
  induction l with
  | nil => simp [pyInsert]
  | cons y ys ih =>
    rcases List.pairwise_cons.mp h with ⟨hy, hys⟩
    simp only [pyInsert]
    by_cases hxy : le x y
    · rw [if_pos hxy]
      refine List.pairwise_cons.mpr ⟨?_, h⟩
      intro z hz
      rcases List.mem_cons.mp hz with rfl | hz
      · exact hxy
      · exact htrans x y z hxy (hy z hz)
    · have hyx : le y x = true := by
        rcases htotal x y with h1 | h1
        · exact absurd h1 hxy
        · exact h1
      rw [if_neg hxy]
      refine List.pairwise_cons.mpr ⟨?_, ih hys⟩
      intro z hz
      rcases (mem_pyInsert le x z ys).mp hz with rfl | hz
      · exact hyx
      · exact hy z hz

theorem pairwise_pySorted (le : α → α → Bool)
    (htrans : ∀ a b c, le a b = true → le b c = true → le a c = true)
    (htotal : ∀ a b, le a b = true ∨ le b a = true)
    (l : List α) :
    (pySorted le l).Pairwise (fun a b => le a b = true) := by
  induction l with
  | nil => simp [pySorted]
  | cons x xs ih => exact pairwise_pyInsert le htrans htotal x (pySorted le xs) ih

theorem filter_pyInsert_pos (le : α → α → Bool) (p : α → Bool) (x : α)
    (l : List α) (hx : p x = true)
    (hcl : ∀ y ∈ l, p y = true → le x y = true) :
    (pyInsert le x l).filter p = x :: l.filter p := by
  induction l with
  | nil => simp [pyInsert, hx]
  | cons y ys ih =>
    simp only [pyInsert]
    by_cases hxy : le x y
    · simp [hxy, hx]
    · have hpy : p y = false := by
        by_cases hpy : p y
        · exact absurd (hcl y (List.mem_cons_self y ys) hpy) hxy
        · simpa using hpy
      have ih' := ih (fun z hz hpz => hcl z (List.mem_cons_of_mem y hz) hpz)
      simp [hxy, hpy, ih']

theorem filter_pyInsert_neg (le : α → α → Bool) (p : α → Bool) (x : α)
    (l : List α) (hx : p x = false) :
    (pyInsert le x l).filter p = l.filter p := by
  induction l with
  | nil => simp [pyInsert, hx]
  | cons y ys ih =>
    simp only [pyInsert]
    by_cases hxy : le x y
    · simp [hxy, hx]
    · by_cases hpy : p y
      · simp [hxy, hpy, ih]
      · simp only [Bool.not_eq_true] at hpy
        simp [hxy, hpy, ih]

/-- Stability of `pySorted`: if all elements selected by `p` compare `le` in
both directions (e.g. they share the sort key), sorting does not change
their relative order. -/
theorem filter_pySorted (le : α → α → Bool) (p : α → Bool)
    (hp : ∀ a b, p a = true → p b = true → le a b = true) (l : List α) :
    (pySorted le l).filter p = l.filter p := by
  induction l with
  | nil => simp [pySorted]
  | cons x xs ih =>
    simp only [pySorted]
    by_cases hx : p x
    · have := filter_pyInsert_pos le p x (pySorted le xs) hx
        (fun y _ hpy => hp x y hx hpy)
      simp [this, ih, hx]
    · simp only [Bool.not_eq_true] at hx
      have := filter_pyInsert_neg le p x (pySorted le xs) hx
      simp [this, ih, hx]

/-! ## Helper lemmas about the Catalog Enricher -/

theorem enrichOne_tx (m : List (Int × CatalogInfo)) (tx : Transaction) :
    (enrichOne m tx).tx = tx := by
  unfold enrichOne
  cases extractProductId tx.ProductID with
  | none => rfl
  | some pid =>
    by_cases h0 : pid = 0
    · simp [h0, enrichNoMatch]
    · cases hlk : lookupMapping m pid with
      | none => simp [h0, hlk, enrichNoMatch]
      | some info => simp [h0, hlk]

theorem enrichOne_of_none (m : List (Int × CatalogInfo)) (tx : Transaction)
    (hex : extractProductId tx.ProductID = none) :
    enrichOne m tx = enrichNoMatch tx := by
  unfold enrichOne
  rw [hex]

theorem enrichOne_of_zero (m : List (Int × CatalogInfo)) (tx : Transaction)
    (hex : extractProductId tx.ProductID = some 0) :
    enrichOne m tx = enrichNoMatch tx := by
  unfold enrichOne
  rw [hex]
  simp

theorem enrichOne_of_absent (m : List (Int × CatalogInfo)) (tx : Transaction)
    (pid : Int) (hex : extractProductId tx.ProductID = some pid) (h0 : pid ≠ 0)
    (hlk : lookupMapping m pid = none) :
    enrichOne m tx = enrichNoMatch tx := by
  unfold enrichOne
  rw [hex]
  simp [h0, hlk]

theorem enrichOne_of_found (m : List (Int × CatalogInfo)) (tx : Transaction)
    (pid : Int) (info : CatalogInfo)
    (hex : extractProductId tx.ProductID = some pid) (h0 : pid ≠ 0)
    (hlk : lookupMapping m pid = some info) :
    enrichOne m tx = ⟨tx, info.category, info.brand, info.rating, true⟩ := by
  unfold enrichOne
  rw [hex]
  simp [h0, hlk]

theorem enrichOne_match_true_iff (m : List (Int × CatalogInfo)) (tx : Transaction) :
    (enrichOne m tx).API_Match = true ↔
      ∃ pid info, extractProductId tx.ProductID = some pid ∧ pid ≠ 0 ∧
        lookupMapping m pid = some info := by
  constructor
  · intro h
    cases hex : extractProductId tx.ProductID with
    | none => rw [enrichOne_of_none m tx hex] at h; exact absurd h (by simp [enrichNoMatch])
    | some pid =>
      by_cases h0 : pid = 0
      · subst h0
        rw [enrichOne_of_zero m tx hex] at h
        exact absurd h (by simp [enrichNoMatch])
      · cases hlk : lookupMapping m pid with
        | none =>
          rw [enrichOne_of_absent m tx pid hex h0 hlk] at h
          exact absurd h (by simp [enrichNoMatch])
        | some info => exact ⟨pid, info, rfl, h0, hlk⟩
  · rintro ⟨pid, info, hex, h0, hlk⟩
    rw [enrichOne_of_found m tx pid info hex h0 hlk]

theorem enrichOne_no_match_or (m : List (Int × CatalogInfo)) (tx : Transaction) :
    (enrichOne m tx).API_Match = true ∨ enrichOne m tx = enrichNoMatch tx := by
  cases hex : extractProductId tx.ProductID with
  | none => exact Or.inr (enrichOne_of_none m tx hex)
  | some pid =>
    by_cases h0 : pid = 0
    · subst h0
      exact Or.inr (enrichOne_of_zero m tx hex)
    · cases hlk : lookupMapping m pid with
      | none => exact Or.inr (enrichOne_of_absent m tx pid hex h0 hlk)
      | some info => exact Or.inl (by rw [enrichOne_of_found m tx pid info hex h0 hlk])

theorem enrich_foldl (m : List (Int × CatalogInfo)) (txs : List Transaction)
    (acc : List EnrichedTransaction) :
    txs.foldl (fun l tx => l ++ [enrichOne m tx]) acc = acc ++ txs.map (enrichOne m) := by
  induction txs generalizing acc with
  | nil => simp
  | cons tx rest ih => simp [List.foldl_cons, ih]

/-! ## Claim theorems -/

/-- C1: on the empty transaction list, total revenue is `0`, region-wise
sales is the empty mapping and top products is the empty list, but
`find_peak_sales_day` does not yield an absent peak: it reaches Python's
`max` on an empty sequence, which raises `ValueError` (modelled as
`Except.error`), contradicting the spec's no-raise requirement. -/
theorem empty_input_aggregations :
    calculate_total_revenue [] = 0 ∧
    region_wise_sales [] = [] ∧
    top_selling_products [] 5 = [] ∧
    top_selling_products_default [] = [] ∧
    find_peak_sales_day [] = Except.error "max() arg is an empty sequence" :=
  ⟨rfl, rfl, rfl, rfl, rfl⟩

/-- C2 counterexample: in the snapshot row of an enriched transaction whose
enrichment fields are all `None`, the `API_Category` column (index 8) is the
string `"None"`, not the empty string the claim requires, and the full file
line reads `...|None|None|None|False`. -/
theorem save_enriched_none_not_empty :
    (enrichedRow showFloatFixture (enrichNoMatch txAlpha))[8]? ≠ some "" ∧
    save_enriched_data showFloatFixture [enrichNoMatch txAlpha] =
      ["TransactionID|Date|ProductID|ProductName|Quantity|UnitPrice|CustomerID|Region|API_Category|API_Brand|API_Rating|API_Match",
       "T1|2024-01-01|P101|Alpha|10|1.0|C1|North|None|None|None|False"] :=
  ⟨by decide, by decide⟩

/-- C2 amended: `save_enriched_data` renders a `None` enrichment field as
the string `"None"` (Python `str(None)`), and renders `API_Match` as the
boolean literal strings `"True"`/`"False"`. -/
theorem enrichedRow_null_fields (showFloat : Rat → String)
    (e : EnrichedTransaction) :
    (e.API_Category = none → (enrichedRow showFloat e)[8]? = some "None") ∧
    (e.API_Brand = none → (enrichedRow showFloat e)[9]? = some "None") ∧
    (e.API_Rating = none → (enrichedRow showFloat e)[10]? = some "None") ∧
    (enrichedRow showFloat e)[11]? = some (pyStrOfBool e.API_Match) := by
  have h8 : (enrichedRow showFloat e)[8]? = some (pyStrOfOptStr e.API_Category) := rfl
  have h9 : (enrichedRow showFloat e)[9]? = some (pyStrOfOptStr e.API_Brand) := rfl
  have h10 : (enrichedRow showFloat e)[10]? =
      some (pyStrOfOptRat showFloat e.API_Rating) := rfl
  refine ⟨fun h => ?_, fun h => ?_, fun h => ?_, rfl⟩
  · rw [h8, h]; rfl
  · rw [h9, h]; rfl
  · rw [h10, h]; rfl

/-- C2 amended witness: the amended rendering rule evaluated on the
all-`None` enriched fixture. -/
theorem enrichedRow_null_fields_witness :
    (enrichNoMatch txAlpha).API_Category = none ∧
    (enrichedRow showFloatFixture (enrichNoMatch txAlpha))[8]? = some "None" ∧
    (enrichedRow showFloatFixture (enrichNoMatch txAlpha))[9]? = some "None" ∧
    (enrichedRow showFloatFixture (enrichNoMatch txAlpha))[10]? = some "None" ∧
    (enrichedRow showFloatFixture (enrichNoMatch txAlpha))[11]? = some "False" := by
  have h := enrichedRow_null_fields showFloatFixture (enrichNoMatch txAlpha)
  exact ⟨rfl, h.1 rfl, h.2.1 rfl, h.2.2.1 rfl, h.2.2.2⟩

/-- C4 counterexample: for the transaction with `ProductID = "P0"` and a
catalog index containing the numeric id `0`, the extracted id `0` exists in
the index, yet the record is not matched: the Python guard
`if product_id and ...` treats `0` as falsy. -/
theorem enrich_zero_id_not_matched :
    extractProductId txZeroId.ProductID = some 0 ∧
    lookupMapping mapZeroId 0 = some infoZero ∧
    (enrichOne mapZeroId txZeroId).API_Match = false ∧
    enrichOne mapZeroId txZeroId = enrichNoMatch txZeroId :=
  ⟨by decide, by decide, by decide, by decide⟩

/-- C4 amended: enrichment extracts the first digit run of `product_id`; a
record is matched (fields copied, `API_Match = true`) exactly when the
extracted id is nonzero and exists in the catalog index; in every other
case (no digits, extracted id `0`, or id absent) the record gets the
no-match outcome, and the original transaction is never modified. -/
theorem enrichOne_matching_rule (m : List (Int × CatalogInfo)) (tx : Transaction) :
    (enrichOne m tx).tx = tx ∧
    ((enrichOne m tx).API_Match = true ↔
      ∃ pid info, extractProductId tx.ProductID = some pid ∧ pid ≠ 0 ∧
        lookupMapping m pid = some info) ∧
    (∀ pid info, extractProductId tx.ProductID = some pid → pid ≠ 0 →
      lookupMapping m pid = some info →
      enrichOne m tx = ⟨tx, info.category, info.brand, info.rating, true⟩) ∧
    ((enrichOne m tx).API_Match = true ∨ enrichOne m tx = enrichNoMatch tx) :=
  ⟨enrichOne_tx m tx, enrichOne_match_true_iff m tx,
   fun pid info hex h0 hlk => enrichOne_of_found m tx pid info hex h0 hlk,
   enrichOne_no_match_or m tx⟩

/-- C4 amended witness: the matching branch of the amended rule evaluated
on `txAlpha` (`P101`) against the catalog entry stored under id `101`. -/
theorem enrichOne_matching_rule_witness :
    enrichOne mapMouse txAlpha =
      ⟨txAlpha, some "Electronics", some "X", some 4, true⟩ :=
  (enrichOne_matching_rule mapMouse txAlpha).2.2.1 101 infoMouse
    (by decide) (by decide) (by decide)

/-- C9 counterexample: on the empty transaction list, `enrich_sales_data`
never returns a list at all: the success-rate summary divides
`enriched_count` by `len(enriched) = 0` and the call raises
`ZeroDivisionError`, so the claim's length/order guarantee fails at `[]`. -/
theorem enrich_sales_data_empty_raises :
    enrich_sales_data [] mapMouse = Except.error "division by zero" ∧
    ∀ l : List EnrichedTransaction, enrich_sales_data [] mapMouse ≠ Except.ok l := by
  refine ⟨rfl, fun l h => ?_⟩
  rw [show enrich_sales_data [] mapMouse = Except.error "division by zero" from rfl] at h
  exact Except.noConfusion h

/-- C9 amended: on every nonempty transaction list, `enrich_sales_data`
returns the elementwise enrichment of the input: the returned list has
exactly the input's length, its i-th record is the enrichment of the i-th
input record, and that record's original eight fields are the i-th input
transaction unchanged; on the empty list the final summary raises
`ZeroDivisionError` instead of returning. -/
theorem enrich_sales_data_preserves (txs : List Transaction)
    (m : List (Int × CatalogInfo)) (h : txs ≠ []) :
    enrich_sales_data txs m = Except.ok (txs.map (enrichOne m)) ∧
    (∀ l, enrich_sales_data txs m = Except.ok l → l.length = txs.length) ∧
    (∀ l, enrich_sales_data txs m = Except.ok l →
      ∀ i : Nat, l[i]? = (txs[i]?).map (enrichOne m)) ∧
    (∀ l, enrich_sales_data txs m = Except.ok l →
      ∀ i : Nat, (l[i]?).map EnrichedTransaction.tx = txs[i]?) := by
  have hok : enrich_sales_data txs m = Except.ok (txs.map (enrichOne m)) := by
    unfold enrich_sales_data
    rw [enrich_foldl m txs []]
    rw [List.nil_append]
    rw [if_neg (by simpa [List.length_eq_zero] using h)]
  refine ⟨hok, ?_, ?_, ?_⟩
  · intro l hl
    rw [hok] at hl
    injection hl with hl
    subst hl
    exact List.length_map txs (enrichOne m)
  · intro l hl i
    rw [hok] at hl
    injection hl with hl
    subst hl
    exact List.getElem?_map (enrichOne m) txs i
  · intro l hl i
    rw [hok] at hl
    injection hl with hl
    subst hl
    rw [List.getElem?_map]
    cases txs[i]? with
    | none => rfl
    | some tx => simp [enrichOne_tx]

/-- C9 amended witness: the amended rule evaluated on a concrete nonempty
list; the hypotheses (nonemptiness and the returned-list equation) are
discharged at this input. -/
theorem enrich_sales_data_preserves_witness :
    enrich_sales_data [txAlpha] mapMouse =
      Except.ok [⟨txAlpha, some "Electronics", some "X", some 4, true⟩] ∧
    ([(⟨txAlpha, some "Electronics", some "X", some 4, true⟩ :
        EnrichedTransaction)]).length = [txAlpha].length := by
  have h := enrich_sales_data_preserves [txAlpha] mapMouse (List.cons_ne_nil _ _)
  have h1 : enrich_sales_data [txAlpha] mapMouse =
      Except.ok [⟨txAlpha, some "Electronics", some "X", some 4, true⟩] := by
    rw [h.1]
    rfl
  exact ⟨h1, h.2.1 _ h1⟩

/-! ## Helper lemmas about the Validator/Filter -/

theorem countP_not_countP (p : α → Bool) (l : List α) :
    l.countP (fun a => !p a) + l.countP p = l.length := by
  induction l with
  | nil => simp
  | cons x xs ih =>
    by_cases h : p x <;> simp [List.countP_cons, h] <;> omega

theorem regionStage_length (v : List Transaction) (r : Option String) :
    (regionStage v r).1.length + (regionStage v r).2 = v.length := by
  cases r with
  | none => simp [regionStage]
  | some s =>
    by_cases hs : s == ""
    · simp [regionStage, hs]
    · have hr : regionStage v (some s) =
          (v.filter (fun tx => tx.Region == s),
            v.length - (v.filter (fun tx => tx.Region == s)).length) := by
        simp [regionStage, hs]
      rw [hr]
      exact Nat.add_sub_cancel' (List.length_filter_le _ v)

theorem minAmountStage_length (v : List Transaction) (m : Option Rat) :
    (minAmountStage v m).1.length + (minAmountStage v m).2 = v.length := by
  cases m with
  | none => simp [minAmountStage]
  | some a => exact Nat.add_sub_cancel' (List.length_filter_le _ v)

theorem maxAmountStage_length (v : List Transaction) (m : Option Rat) :
    (maxAmountStage v m).1.length + (maxAmountStage v m).2 = v.length := by
  cases m with
  | none => simp [maxAmountStage]
  | some a => exact Nat.add_sub_cancel' (List.length_filter_le _ v)

/-- C5: with no optional filters, `validate_and_filter` returns exactly the
input transactions with positive quantity and unit price and the `T`/`P`/`C`
prefixes on the three id fields; every returned record is an unmodified
input record (never repaired), no returned record has non-positive quantity
or price, and dropped records are counted. -/
theorem validate_and_filter_no_filters (txs : List Transaction) :
    (validate_and_filter txs none none none).1 = txs.filter (fun tx =>
        decide (0 < tx.Quantity) && decide (0 < tx.UnitPrice) &&
        pyStartsWith tx.TransactionID "T" && pyStartsWith tx.ProductID "P" &&
        pyStartsWith tx.CustomerID "C") ∧
    (validate_and_filter txs none none none).2.1 = txs.countP invalidTransaction ∧
    (∀ tx ∈ (validate_and_filter txs none none none).1,
        0 < tx.Quantity ∧ 0 < tx.UnitPrice) ∧
    (∀ tx ∈ (validate_and_filter txs none none none).1, tx ∈ txs) ∧
    (validate_and_filter txs none none none).1.length +
      txs.countP invalidTransaction = txs.length := by
  have hres : (validate_and_filter txs none none none).1 =
      txs.filter (fun tx => !invalidTransaction tx) := rfl
  have hpt : ∀ tx : Transaction, (!invalidTransaction tx) = (
      decide (0 < tx.Quantity) && decide (0 < tx.UnitPrice) &&
      pyStartsWith tx.TransactionID "T" && pyStartsWith tx.ProductID "P" &&
      pyStartsWith tx.CustomerID "C") := by
    intro tx
    have hq : (!decide (tx.Quantity ≤ 0)) = decide (0 < tx.Quantity) := by
      rw [← decide_not, decide_eq_decide]
      exact not_le
    have hp : (!decide (tx.UnitPrice ≤ 0)) = decide (0 < tx.UnitPrice) := by
      rw [← decide_not, decide_eq_decide]
      exact not_le
    simp only [invalidTransaction, Bool.not_or, Bool.not_not, hq, hp]
  refine ⟨?_, rfl, ?_, ?_, ?_⟩
  · rw [hres]
    exact List.filter_congr (fun tx _ => hpt tx)
  · intro tx htx
    rw [hres] at htx
    have := List.of_mem_filter htx
    rw [hpt tx] at this
    simp only [Bool.and_eq_true, decide_eq_true_eq] at this
    exact ⟨this.1.1.1.1, this.1.1.1.2⟩
  · intro tx htx
    rw [hres] at htx
    exact List.mem_of_mem_filter htx
  · rw [hres, ← List.countP_eq_length_filter]
    exact countP_not_countP invalidTransaction txs

/-- C5 witness: the validator evaluated on a list holding one valid and one
invalid record; the surviving record has positive quantity and price. -/
theorem validate_and_filter_no_filters_witness :
    0 < txAlpha.Quantity ∧ 0 < txAlpha.UnitPrice :=
  (validate_and_filter_no_filters [txAlpha, txBadQty]).2.2.1 txAlpha (by decide)

/-- C8: for every input and every combination of optional filters, the
summary is consistent: `final_count` plus all removal counts equals
`total_input`, `final_count` is the subtraction the claim states, and
`final_count` is the length of the returned list. -/
theorem validate_and_filter_summary (txs : List Transaction)
    (region : Option String) (min_amount max_amount : Option Rat) :
    ((validate_and_filter txs region min_amount max_amount).2.2.final_count +
      (validate_and_filter txs region min_amount max_amount).2.2.filtered_by_amount +
      (validate_and_filter txs region min_amount max_amount).2.2.filtered_by_region +
      (validate_and_filter txs region min_amount max_amount).2.2.invalid =
      (validate_and_filter txs region min_amount max_amount).2.2.total_input) ∧
    ((validate_and_filter txs region min_amount max_amount).2.2.final_count =
      (validate_and_filter txs region min_amount max_amount).2.2.total_input -
      (validate_and_filter txs region min_amount max_amount).2.2.invalid -
      (validate_and_filter txs region min_amount max_amount).2.2.filtered_by_region -
      (validate_and_filter txs region min_amount max_amount).2.2.filtered_by_amount) ∧
    ((validate_and_filter txs region min_amount max_amount).2.2.final_count =
      (validate_and_filter txs region min_amount max_amount).1.length) := by
  have h0 : (txs.filter (fun tx => !invalidTransaction tx)).length +
      txs.countP invalidTransaction = txs.length := by
    rw [← List.countP_eq_length_filter]
    exact countP_not_countP invalidTransaction txs
  have h1 := regionStage_length (txs.filter (fun tx => !invalidTransaction tx)) region
  have h2 := minAmountStage_length
    (regionStage (txs.filter (fun tx => !invalidTransaction tx)) region).1 min_amount
  have h3 := maxAmountStage_length
    (minAmountStage (regionStage (txs.filter (fun tx => !invalidTransaction tx)) region).1
      min_amount).1 max_amount
  have hv : (validate_and_filter txs region min_amount max_amount).2.2 =
      { total_input := txs.length
        invalid := txs.countP invalidTransaction
        filtered_by_region :=
          (regionStage (txs.filter (fun tx => !invalidTransaction tx)) region).2
        filtered_by_amount :=
          (minAmountStage
            (regionStage (txs.filter (fun tx => !invalidTransaction tx)) region).1
            min_amount).2 +
          (maxAmountStage
            (minAmountStage
              (regionStage (txs.filter (fun tx => !invalidTransaction tx)) region).1
              min_amount).1 max_amount).2
        final_count :=
          (maxAmountStage
            (minAmountStage
              (regionStage (txs.filter (fun tx => !invalidTransaction tx)) region).1
              min_amount).1 max_amount).1.length } := rfl
  have hl : (validate_and_filter txs region min_amount max_amount).1 =
      (maxAmountStage
        (minAmountStage
          (regionStage (txs.filter (fun tx => !invalidTransaction tx)) region).1
          min_amount).1 max_amount).1 := rfl
  refine ⟨?_, ?_, ?_⟩ <;> rw [hv] <;> try rw [hl]
  · dsimp only
    omega
  · dsimp only
    omega

/-! ## Helper lemmas about the region aggregation -/

theorem calculate_total_revenue_foldl (txs : List Transaction) (init : Rat) :
    txs.foldl (fun total tx => total + (tx.Quantity : Rat) * tx.UnitPrice) init =
      init + (txs.map amount).sum := by
  induction txs generalizing init with
  | nil => simp
  | cons tx rest ih =>
    simp only [List.foldl_cons, List.map_cons, List.sum_cons, ih, amount]
    ring

theorem calculate_total_revenue_eq (txs : List Transaction) :
    calculate_total_revenue txs = (txs.map amount).sum := by
  unfold calculate_total_revenue
  rw [calculate_total_revenue_foldl]
  ring

theorem salesSum_addRegionTx (l : List (String × RegionStats)) (r : String) (a : Rat) :
    ((addRegionTx l r a).map (fun p => p.2.total_sales)).sum =
      (l.map (fun p => p.2.total_sales)).sum + a := by
  induction l with
  | nil => simp [addRegionTx]
  | cons hd tl ih =>
    obtain ⟨k, s⟩ := hd
    by_cases h : k = r
    · subst h
      simp [addRegionTx]
      ring
    · simp only [addRegionTx, if_neg h, List.map_cons, List.sum_cons, ih]
      ring

theorem salesSum_regionFold (txs : List Transaction)
    (acc : List (String × RegionStats)) :
    (((txs.foldl (fun acc tx => addRegionTx acc tx.Region (amount tx)) acc).map
      (fun p => p.2.total_sales)).sum) =
      (acc.map (fun p => p.2.total_sales)).sum + (txs.map amount).sum := by
  induction txs generalizing acc with
  | nil => simp
  | cons tx rest ih =>
    simp only [List.foldl_cons, List.map_cons, List.sum_cons, ih, salesSum_addRegionTx]
    ring

theorem regionPercentStep_sales (t : Rat) (l : List (String × RegionStats)) :
    (regionPercentStep t l).map (fun p => p.2.total_sales) =
      l.map (fun p => p.2.total_sales) := by
  unfold regionPercentStep
  rw [List.map_map]
  refine List.map_congr_left (fun p _ => ?_)
  by_cases h : 0 < t <;> simp [h]

theorem regionPercentStep_of_not_pos (t : Rat) (l : List (String × RegionStats))
    (h : ¬ 0 < t) : regionPercentStep t l = l := by
  unfold regionPercentStep
  have hcongr : l.map (fun p =>
      if 0 < t then
        (p.1, { total_sales := p.2.total_sales,
                transaction_count := p.2.transaction_count,
                percentage := pyRound2 (p.2.total_sales / t * 100) })
      else p) = l.map (fun p => p) :=
    List.map_congr_left (fun p _ => if_neg h)
  simpa using hcongr

theorem percentage_zero_addRegionTx (l : List (String × RegionStats)) (r : String)
    (a : Rat) (h : ∀ p ∈ l, p.2.percentage = 0) :
    ∀ p ∈ addRegionTx l r a, p.2.percentage = 0 := by
  induction l with
  | nil =>
    intro p hp
    simp only [addRegionTx, List.mem_singleton] at hp
    subst hp
    rfl
  | cons hd tl ih =>
    obtain ⟨k, s⟩ := hd
    intro p hp
    by_cases hk : k = r
    · simp only [addRegionTx, if_pos hk, List.mem_cons] at hp
      rcases hp with rfl | hp
      · exact h (k, s) (List.mem_cons_self _ _)
      · exact h p (List.mem_cons_of_mem _ hp)
    · simp only [addRegionTx, if_neg hk, List.mem_cons] at hp
      rcases hp with rfl | hp
      · exact h (k, s) (List.mem_cons_self _ _)
      · exact ih (fun q hq => h q (List.mem_cons_of_mem _ hq)) p hp

theorem percentage_zero_regionFold (txs : List Transaction)
    (acc : List (String × RegionStats)) (h : ∀ p ∈ acc, p.2.percentage = 0) :
    ∀ p ∈ txs.foldl (fun acc tx => addRegionTx acc tx.Region (amount tx)) acc,
      p.2.percentage = 0 := by
  induction txs generalizing acc with
  | nil => simpa using h
  | cons tx rest ih =>
    simp only [List.foldl_cons]
    exact ih _ (percentage_zero_addRegionTx acc tx.Region (amount tx) h)

/-- C6: the per-region totals of `region_wise_sales` partition the total
revenue (their sum equals `calculate_total_revenue`), and when the total
revenue is `0` the division-by-zero guard leaves every region's percentage
at `0`. -/
theorem region_wise_sales_partition (txs : List Transaction) :
    ((region_wise_sales txs).map (fun p => p.2.total_sales)).sum =
      calculate_total_revenue txs ∧
    (calculate_total_revenue txs = 0 →
      ∀ p ∈ region_wise_sales txs, p.2.percentage = 0) := by
  constructor
  · have hperm := (pySorted_perm
      (fun a b => decide (b.2.total_sales ≤ a.2.total_sales))
      (regionPercentStep (calculate_total_revenue txs) (regionTotals txs))).map
      (fun p => p.2.total_sales)
    rw [region_wise_sales, hperm.sum_eq, regionPercentStep_sales]
    unfold regionTotals
    rw [salesSum_regionFold, calculate_total_revenue_eq]
    simp
  · intro h0 p hp
    rw [region_wise_sales, mem_pySorted] at hp
    rw [regionPercentStep_of_not_pos _ _ (by rw [h0]; exact lt_irrefl 0)] at hp
    exact percentage_zero_regionFold txs [] (by simp) p hp

/-- C6 witness: the partition invariant and the zero-revenue percentage rule
evaluated on a one-transaction list with zero revenue. -/
theorem region_wise_sales_partition_witness :
    (((region_wise_sales [txFreeSample]).map (fun p => p.2.total_sales)).sum =
      calculate_total_revenue [txFreeSample]) ∧
    (∀ p ∈ region_wise_sales [txFreeSample], p.2.percentage = 0) := by
  have h := region_wise_sales_partition [txFreeSample]
  have h0 : calculate_total_revenue [txFreeSample] = 0 := by
    simp [calculate_total_revenue, txFreeSample]
  exact ⟨h.1, h.2 h0⟩

/-! ## Helper lemmas about the product aggregation -/

theorem mem_keys_addProductTx (l : List (String × ProductStats)) (k : String)
    (q : Int) (r : Rat) (a : String) :
    a ∈ (addProductTx l k q r).map Prod.fst ↔ a ∈ l.map Prod.fst ∨ a = k := by
  induction l with
  | nil => simp [addProductTx]
  | cons hd tl ih =>
    obtain ⟨key, s⟩ := hd
    by_cases h : key = k
    · subst h
      rw [addProductTx, if_pos rfl]
      simp only [List.map_cons, List.mem_cons]
      tauto
    · rw [addProductTx, if_neg h]
      simp only [List.map_cons, List.mem_cons, ih]
      tauto

theorem nodup_keys_addProductTx (l : List (String × ProductStats)) (k : String)
    (q : Int) (r : Rat) (h : (l.map Prod.fst).Nodup) :
    ((addProductTx l k q r).map Prod.fst).Nodup := by
  induction l with
  | nil => simp [addProductTx]
  | cons hd tl ih =>
    obtain ⟨key, s⟩ := hd
    rw [List.map_cons, List.nodup_cons] at h
    by_cases hk : key = k
    · subst hk
      rw [addProductTx, if_pos rfl]
      rw [List.map_cons, List.nodup_cons]
      exact h
    · rw [addProductTx, if_neg hk, List.map_cons, List.nodup_cons]
      refine ⟨fun hmem => ?_, ih h.2⟩
      rcases (mem_keys_addProductTx tl k q r key).mp hmem with h1 | rfl
      · exact h.1 h1
      · exact hk rfl

theorem keys_productFold_nodup (txs : List Transaction)
    (acc : List (String × ProductStats)) (h : (acc.map Prod.fst).Nodup) :
    (((txs.foldl (fun acc tx =>
        addProductTx acc tx.ProductName tx.Quantity (amount tx)) acc)).map
      Prod.fst).Nodup := by
  induction txs generalizing acc with
  | nil => simpa using h
  | cons tx rest ih =>
    simp only [List.foldl_cons]
    exact ih _ (nodup_keys_addProductTx acc tx.ProductName tx.Quantity (amount tx) h)

theorem mem_keys_productFold (txs : List Transaction)
    (acc : List (String × ProductStats)) (a : String) :
    a ∈ ((txs.foldl (fun acc tx =>
        addProductTx acc tx.ProductName tx.Quantity (amount tx)) acc)).map Prod.fst ↔
      a ∈ acc.map Prod.fst ∨ a ∈ txs.map (fun tx => tx.ProductName) := by
  induction txs generalizing acc with
  | nil => simp
  | cons tx rest ih =>
    simp only [List.foldl_cons, List.map_cons, List.mem_cons]
    rw [ih, mem_keys_addProductTx]
    tauto

theorem product_stats_keys_nodup (txs : List Transaction) :
    ((product_stats txs).map Prod.fst).Nodup :=
  keys_productFold_nodup txs [] (by simp)

theorem mem_product_stats_keys (txs : List Transaction) (a : String) :
    a ∈ (product_stats txs).map Prod.fst ↔ a ∈ txs.map (fun tx => tx.ProductName) := by
  unfold product_stats
  rw [mem_keys_productFold]
  simp

theorem product_stats_length (txs : List Transaction) :
    (product_stats txs).length = (txs.map (fun tx => tx.ProductName)).toFinset.card := by
  have hnd := product_stats_keys_nodup txs
  have hset : ((product_stats txs).map Prod.fst).toFinset =
      (txs.map (fun tx => tx.ProductName)).toFinset := by
    ext a
    simp only [List.mem_toFinset]
    exact mem_product_stats_keys txs a
  calc (product_stats txs).length
      = ((product_stats txs).map Prod.fst).length := (List.length_map _ _).symm
    _ = ((product_stats txs).map Prod.fst).toFinset.card :=
        (List.toFinset_card_of_nodup hnd).symm
    _ = (txs.map (fun tx => tx.ProductName)).toFinset.card := by rw [hset]

theorem qtyVal_addProductTx (l : List (String × ProductStats)) (p : String)
    (q : Int) (r : Rat) (k : String) :
    qtyVal (addProductTx l p q r) k = qtyVal l k + (if k = p then q else 0) := by
  induction l with
  | nil =>
    by_cases h : k = p
    · subst h
      simp [addProductTx, qtyVal, findStats]
    · have h2 : ¬ p = k := fun hpk => h hpk.symm
      simp [addProductTx, qtyVal, findStats, h, h2]
  | cons hd tl ih =>
    obtain ⟨key, s⟩ := hd
    by_cases hkey : key = p
    · subst hkey
      rw [addProductTx, if_pos rfl]
      by_cases hk : k = key
      · subst hk
        simp [qtyVal, findStats]
      · have h2 : ¬ key = k := fun h3 => hk h3.symm
        simp [qtyVal, findStats, hk, h2]
    · rw [addProductTx, if_neg hkey]
      by_cases hk : key = k
      · subst hk
        have h2 : ¬ key = p := hkey
        simp [qtyVal, findStats, if_neg h2]
      · simp only [qtyVal, findStats, if_neg hk]
        exact ih

theorem revVal_addProductTx (l : List (String × ProductStats)) (p : String)
    (q : Int) (r : Rat) (k : String) :
    revVal (addProductTx l p q r) k = revVal l k + (if k = p then r else 0) := by
  induction l with
  | nil =>
    by_cases h : k = p
    · subst h
      simp [addProductTx, revVal, findStats]
    · have h2 : ¬ p = k := fun hpk => h hpk.symm
      simp [addProductTx, revVal, findStats, h, h2]
  | cons hd tl ih =>
    obtain ⟨key, s⟩ := hd
    by_cases hkey : key = p
    · subst hkey
      rw [addProductTx, if_pos rfl]
      by_cases hk : k = key
      · subst hk
        simp [revVal, findStats]
      · have h2 : ¬ key = k := fun h3 => hk h3.symm
        simp [revVal, findStats, hk, h2]
    · rw [addProductTx, if_neg hkey]
      by_cases hk : key = k
      · subst hk
        have h2 : ¬ key = p := hkey
        simp [revVal, findStats, if_neg h2]
      · simp only [revVal, findStats, if_neg hk]
        exact ih

theorem qtyVal_productFold (txs : List Transaction)
    (acc : List (String × ProductStats)) (k : String) :
    qtyVal (txs.foldl (fun acc tx =>
        addProductTx acc tx.ProductName tx.Quantity (amount tx)) acc) k =
      qtyVal acc k +
        ((txs.filter (fun tx => tx.ProductName == k)).map (fun tx => tx.Quantity)).sum := by
  induction txs generalizing acc with
  | nil => simp
  | cons tx rest ih =>
    simp only [List.foldl_cons]
    rw [ih, qtyVal_addProductTx]
    by_cases h : tx.ProductName = k
    · simp [List.filter_cons, h]
      omega
    · have h2 : ¬ k = tx.ProductName := fun h3 => h h3.symm
      simp [List.filter_cons, h, h2]

theorem revVal_productFold (txs : List Transaction)
    (acc : List (String × ProductStats)) (k : String) :
    revVal (txs.foldl (fun acc tx =>
        addProductTx acc tx.ProductName tx.Quantity (amount tx)) acc) k =
      revVal acc k +
        ((txs.filter (fun tx => tx.ProductName == k)).map amount).sum := by
  induction txs generalizing acc with
  | nil => simp
  | cons tx rest ih =>
    simp only [List.foldl_cons]
    rw [ih, revVal_addProductTx]
    by_cases h : tx.ProductName = k
    · simp [List.filter_cons, h]
      ring
    · have h2 : ¬ k = tx.ProductName := fun h3 => h h3.symm
      simp [List.filter_cons, h, h2]

theorem findStats_eq_of_mem (l : List (String × ProductStats)) (k : String)
    (s : ProductStats) (hnd : (l.map Prod.fst).Nodup) (hm : (k, s) ∈ l) :
    findStats l k = some s := by
  induction l with
  | nil => cases hm
  | cons hd tl ih =>
    obtain ⟨key, t⟩ := hd
    rw [List.map_cons, List.nodup_cons] at hnd
    rcases List.mem_cons.mp hm with heq | hm1
    · injection heq with h1 h2
      subst h1
      subst h2
      simp [findStats]
    · have hk : key ≠ k := by
        intro h
        subst h
        exact hnd.1 (by simpa using List.mem_map_of_mem Prod.fst hm1)
      rw [findStats, if_neg hk]
      exact ih hnd.2 hm1

theorem product_stats_vals (txs : List Transaction) (p : String × ProductStats)
    (hp : p ∈ product_stats txs) :
    p.2.total_qty =
      ((txs.filter (fun tx => tx.ProductName == p.1)).map (fun tx => tx.Quantity)).sum ∧
    p.2.total_revenue =
      ((txs.filter (fun tx => tx.ProductName == p.1)).map amount).sum := by
  obtain ⟨k, s⟩ := p
  have hfind : findStats (product_stats txs) k = some s :=
    findStats_eq_of_mem _ k s (product_stats_keys_nodup txs) hp
  constructor
  · have : qtyVal (product_stats txs) k = s.total_qty := by
      unfold qtyVal
      rw [hfind]
    rw [← this]
    have h2 := qtyVal_productFold txs [] k
    unfold product_stats
    rw [h2]
    simp [qtyVal, findStats]
  · have : revVal (product_stats txs) k = s.total_revenue := by
      unfold revVal
      rw [hfind]
    rw [← this]
    have h2 := revVal_productFold txs [] k
    unfold product_stats
    rw [h2]
    simp [revVal, findStats]

theorem descQty_trans : ∀ a b c : String × ProductStats,
    decide (b.2.total_qty ≤ a.2.total_qty) = true →
    decide (c.2.total_qty ≤ b.2.total_qty) = true →
    decide (c.2.total_qty ≤ a.2.total_qty) = true := by
  intro a b c hab hbc
  simp only [decide_eq_true_eq] at hab hbc ⊢
  exact le_trans hbc hab

theorem descQty_total : ∀ a b : String × ProductStats,
    decide (b.2.total_qty ≤ a.2.total_qty) = true ∨
    decide (a.2.total_qty ≤ b.2.total_qty) = true := by
  intro a b
  rcases le_total b.2.total_qty a.2.total_qty with h | h
  · left
    simpa using h
  · right
    simpa using h

/-- C7: `top_selling_products` groups by product name and accumulates each
name's total quantity and revenue, returns exactly
`min n (number of distinct product names)` triples drawn from the
aggregation, sorted by descending total quantity with ties kept in
first-seen order (a stable sort), and `n` defaults to 5. -/
theorem top_selling_products_spec (txs : List Transaction) (n : Nat) :
    (top_selling_products txs n).length =
      min n ((txs.map (fun tx => tx.ProductName)).toFinset.card) ∧
    (top_selling_products txs n).Pairwise (fun a b => b.2.1 ≤ a.2.1) ∧
    (∀ x ∈ top_selling_products txs n, x ∈ statsTriples txs) ∧
    (∀ x ∈ top_selling_products txs n,
      x.2.1 = ((txs.filter (fun tx => tx.ProductName == x.1)).map
        (fun tx => tx.Quantity)).sum ∧
      x.2.2 = ((txs.filter (fun tx => tx.ProductName == x.1)).map amount).sum) ∧
    (∀ q : Int, List.Sublist
      ((top_selling_products txs n).filter (fun x => x.2.1 == q))
      ((statsTriples txs).filter (fun x => x.2.1 == q))) ∧
    top_selling_products_default txs = top_selling_products txs 5 := by
  have hmem : ∀ x ∈ top_selling_products txs n,
      ∃ p ∈ product_stats txs, (p.1, p.2.total_qty, p.2.total_revenue) = x := by
    intro x hx
    unfold top_selling_products at hx
    rcases List.mem_map.mp hx with ⟨p, hp, rfl⟩
    exact ⟨p, (mem_pySorted _ p _).mp (List.mem_of_mem_take hp), rfl⟩
  refine ⟨?_, ?_, ?_, ?_, ?_, rfl⟩
  · unfold top_selling_products sorted_products
    rw [List.length_map, List.length_take, length_pySorted, product_stats_length]
  · unfold top_selling_products
    rw [List.pairwise_map]
    refine List.Pairwise.imp ?_
      (List.Pairwise.sublist (List.take_sublist n _)
        (pairwise_pySorted _ descQty_trans descQty_total (product_stats txs)))
    intro a b hab
    simpa using hab
  · intro x hx
    rcases hmem x hx with ⟨p, hp, rfl⟩
    exact List.mem_map_of_mem _ hp
  · intro x hx
    rcases hmem x hx with ⟨p, hp, rfl⟩
    exact product_stats_vals txs p hp
  · intro q
    have hstable : (pySorted (fun a b => decide (b.2.total_qty ≤ a.2.total_qty))
        (product_stats txs)).filter (fun p => p.2.total_qty == q) =
        (product_stats txs).filter (fun p => p.2.total_qty == q) := by
      refine filter_pySorted _ _ ?_ _
      intro a b ha hb
      simp only [beq_iff_eq] at ha hb
      simp [ha, hb]
    have h1 : (top_selling_products txs n).filter (fun x => x.2.1 == q) =
        (((sorted_products txs).take n).filter
          (fun p => p.2.total_qty == q)).map
          (fun p => (p.1, p.2.total_qty, p.2.total_revenue)) := by
      unfold top_selling_products
      rw [List.filter_map]
      rfl
    have h2 : (statsTriples txs).filter (fun x => x.2.1 == q) =
        ((product_stats txs).filter (fun p => p.2.total_qty == q)).map
          (fun p => (p.1, p.2.total_qty, p.2.total_revenue)) := by
      unfold statsTriples
      rw [List.filter_map]
      rfl
    rw [h1, h2]
    refine List.Sublist.map _ ?_
    have hsub : (((sorted_products txs).take n).filter
        (fun p => p.2.total_qty == q)).Sublist
        ((sorted_products txs).filter (fun p => p.2.total_qty == q)) :=
      (List.take_sublist n _).filter _
    unfold sorted_products at hsub ⊢
    rw [hstable] at hsub
    exact hsub

/-- C7 witness: the characterisation applied to a concrete two-product list;
the first reported triple is drawn from the aggregation and carries the
accumulated quantity and revenue sums for its name. -/
theorem top_selling_products_spec_witness :
    ("Alpha", (10 : Int), (10 : Rat)) ∈ statsTriples [txAlpha, txBeta] ∧
    (10 : Int) = (([txAlpha, txBeta].filter
      (fun tx => tx.ProductName == "Alpha")).map (fun tx => tx.Quantity)).sum ∧
    (10 : Rat) = (([txAlpha, txBeta].filter
      (fun tx => tx.ProductName == "Alpha")).map amount).sum := by
  have hlist : top_selling_products [txAlpha, txBeta] 5 =
      [("Alpha", 10, 10), ("Beta", 1, 100)] := by
    simp [top_selling_products, sorted_products, product_stats, addProductTx,
      pySorted, pyInsert, amount, txAlpha, txBeta]
  have h := top_selling_products_spec [txAlpha, txBeta] 5
  have hmem : ("Alpha", (10 : Int), (10 : Rat)) ∈
      top_selling_products [txAlpha, txBeta] 5 := by
    rw [hlist]
    exact List.mem_cons_self _ _
  exact ⟨h.2.2.1 _ hmem, (h.2.2.2.1 _ hmem).1, (h.2.2.2.1 _ hmem).2⟩

/-! ## Helper lemmas about the report's product section -/

theorem addReportProduct_eq_addProductTx (l : List (String × ProductStats))
    (k : String) (q : Int) (r : Rat) :
    addReportProduct l k q r = addProductTx l k q r := by
  induction l with
  | nil => rfl
  | cons hd tl ih =>
    obtain ⟨key, s⟩ := hd
    by_cases h : key = k
    · rw [addReportProduct, addProductTx, if_pos h, if_pos h]
    · rw [addReportProduct, addProductTx, if_neg h, if_neg h, ih]

theorem report_product_sales_eq (txs : List Transaction) :
    report_product_sales txs = product_stats txs := by
  unfold report_product_sales product_stats
  have hstep : (fun (acc : List (String × ProductStats)) (tx : Transaction) =>
      addReportProduct acc tx.ProductName tx.Quantity (amount tx)) =
      (fun acc tx => addProductTx acc tx.ProductName tx.Quantity (amount tx)) :=
    funext fun acc => funext fun tx =>
      addReportProduct_eq_addProductTx acc tx.ProductName tx.Quantity (amount tx)
  rw [hstep]

theorem descRev_trans : ∀ a b c : String × ProductStats,
    decide (b.2.total_revenue ≤ a.2.total_revenue) = true →
    decide (c.2.total_revenue ≤ b.2.total_revenue) = true →
    decide (c.2.total_revenue ≤ a.2.total_revenue) = true := by
  intro a b c hab hbc
  simp only [decide_eq_true_eq] at hab hbc ⊢
  exact le_trans hbc hab

theorem descRev_total : ∀ a b : String × ProductStats,
    decide (b.2.total_revenue ≤ a.2.total_revenue) = true ∨
    decide (a.2.total_revenue ≤ b.2.total_revenue) = true := by
  intro a b
  rcases le_total b.2.total_revenue a.2.total_revenue with h | h
  · left
    simpa using h
  · right
    simpa using h

/-- C3 counterexample: on two transactions where the quantity order and the
revenue order disagree, the report's top-5 products table lists the products
in a different order than `top_selling_products` with `N = 5`: the report
sorts by revenue, the aggregation engine by quantity. -/
theorem report_top_products_order_cex :
    (report_top_products [txAlpha, txBeta]).map (fun p => p.1) ≠
      (top_selling_products [txAlpha, txBeta] 5).map (fun x => x.1) := by
  simp [report_top_products, report_product_sales, addReportProduct,
    top_selling_products, sorted_products, product_stats, addProductTx,
    pySorted, pyInsert, amount, txAlpha, txBeta]
  norm_num
  decide

/-- C3 amended: the report's top-5 products table draws on exactly the same
per-product aggregation as `top_selling_products` (the two grouping loops
agree), but lists the first 5 entries sorted by descending total revenue
rather than by descending total quantity. -/
theorem report_top_products_by_revenue (txs : List Transaction) :
    report_product_sales txs = product_stats txs ∧
    report_top_products txs =
      (pySorted (fun a b => decide (b.2.total_revenue ≤ a.2.total_revenue))
        (product_stats txs)).take 5 ∧
    (report_top_products txs).Pairwise
      (fun a b => b.2.total_revenue ≤ a.2.total_revenue) := by
  refine ⟨report_product_sales_eq txs, ?_, ?_⟩
  · unfold report_top_products
    rw [report_product_sales_eq]
  · unfold report_top_products
    refine List.Pairwise.imp ?_
      (List.Pairwise.sublist (List.take_sublist 5 _)
        (pairwise_pySorted _ descRev_trans descRev_total
          (report_product_sales txs)))
    intro a b hab
    simpa using hab

/-! ## Helper lemmas about the report's low-product section -/

theorem qty_pos_addReportProduct (l : List (String × ProductStats)) (k : String)
    (q : Int) (r : Rat) (hl : ∀ p ∈ l, 0 < p.2.total_qty) (hq : 0 < q) :
    ∀ p ∈ addReportProduct l k q r, 0 < p.2.total_qty := by
  induction l with
  | nil =>
    intro p hp
    simp only [addReportProduct, List.mem_singleton] at hp
    subst hp
    simpa using hq
  | cons hd tl ih =>
    obtain ⟨key, s⟩ := hd
    intro p hp
    by_cases h : key = k
    · rw [addReportProduct, if_pos h] at hp
      rcases List.mem_cons.mp hp with rfl | hp1
      · have hs := hl (key, s) (List.mem_cons_self _ _)
        have : (0 : Int) < q := hq
        simp only at hs ⊢
        omega
      · exact hl p (List.mem_cons_of_mem _ hp1)
    · rw [addReportProduct, if_neg h] at hp
      rcases List.mem_cons.mp hp with rfl | hp1
      · exact hl (key, s) (List.mem_cons_self _ _)
      · exact ih (fun p1 hp2 => hl p1 (List.mem_cons_of_mem _ hp2)) p hp1

theorem qty_pos_reportFold (txs : List Transaction)
    (acc : List (String × ProductStats)) (hacc : ∀ p ∈ acc, 0 < p.2.total_qty)
    (htxs : ∀ tx ∈ txs, 0 < tx.Quantity) :
    ∀ p ∈ txs.foldl (fun acc tx =>
        addReportProduct acc tx.ProductName tx.Quantity (amount tx)) acc,
      0 < p.2.total_qty := by
  induction txs generalizing acc with
  | nil => simpa using hacc
  | cons tx rest ih =>
    simp only [List.foldl_cons]
    exact ih _
      (qty_pos_addReportProduct acc tx.ProductName tx.Quantity (amount tx) hacc
        (htxs tx (List.mem_cons_self _ _)))
      (fun tx1 h1 => htxs tx1 (List.mem_cons_of_mem _ h1))

/-- C10: on any list of validated transactions (all quantities positive),
the report's internal low-products list — which keeps only products whose
aggregated quantity is exactly `0` — is empty, so the "Low Performing
Products" line always renders `None`. -/
theorem report_low_products_empty (txs : List Transaction)
    (h : ∀ tx ∈ txs, 0 < tx.Quantity) :
    report_low_products txs = [] ∧
    report_low_line txs = "Low Performing Products: None" := by
  have hpos : ∀ p ∈ report_product_sales txs, 0 < p.2.total_qty :=
    qty_pos_reportFold txs [] (by simp) h
  have hfil : (report_product_sales txs).filter
      (fun p => decide (p.2.total_qty = 0)) = [] := by
    rw [List.filter_eq_nil_iff]
    intro p hp
    simp only [decide_eq_true_eq]
    have := hpos p hp
    omega
  have hempty : report_low_products txs = [] := by
    unfold report_low_products
    rw [hfil]
    rfl
  refine ⟨hempty, ?_⟩
  unfold report_low_line
  rw [hempty]
  rfl

/-- C10 witness: the low-products rule evaluated on a concrete valid
transaction list. -/
theorem report_low_products_empty_witness :
    (∀ tx ∈ [txAlpha], 0 < tx.Quantity) ∧
    report_low_products [txAlpha] = [] ∧
    report_low_line [txAlpha] = "Low Performing Products: None" := by
  have hq : ∀ tx ∈ [txAlpha], 0 < tx.Quantity := by decide
  have h := report_low_products_empty [txAlpha] hq
  exact ⟨hq, h.1, h.2⟩
